import Mathlib

/-!
Verification of the stdio JSON-RPC transport (`src/transport.ts`,
re-exported through `src/index.ts`).

The development has two layers:

* a pure model of the line framer (`handleData` and the private buffer),
  working on `List Char` (the code works on JS strings obtained from
  `Buffer.toString()`; chunks are modelled at that decoded-text level);
* a state-machine model of `StdioTransport`: the instance fields
  (`process`, `buffer`, `connected`) together with the per-`connect`
  closure state (`settled`, the two timers, the spawned child's
  `killed`/`exitCode`), with the asynchronous callbacks of `connect`
  (grace timer, connection timeout, stdout/stderr data, process
  `error`/`close`/`exit`) as events of a step function.
-/

namespace StdioRpc

/-- Characters removed by JavaScript `String.prototype.trim`:
ECMAScript WhiteSpace (TAB, VT, FF, SP, NBSP, ZWNBSP and the Unicode
space separators) together with the LineTerminators (LF, CR, LS, PS). -/
def jsWhitespaceChars : List Char :=
  ['\t', '\u000B', '\u000C', ' ', '\u00A0', '\u1680', '\u2000', '\u2001',
   '\u2002', '\u2003', '\u2004', '\u2005', '\u2006', '\u2007', '\u2008',
   '\u2009', '\u200A', '\u202F', '\u205F', '\u3000', '\uFEFF',
   '\n', '\r', '\u2028', '\u2029']

/-- Whether `c` is whitespace in the sense of JavaScript `trim`. -/
def isJsWhitespace (c : Char) : Bool :=
  jsWhitespaceChars.contains c

/-- Model of JavaScript `String.prototype.trim`: drop leading and trailing
whitespace characters. -/
def jsTrim (s : List Char) : List Char :=
  ((s.dropWhile isJsWhitespace).reverse.dropWhile isJsWhitespace).reverse

/-- Model of one step of the framing loop in `handleData`:
`indexOf('\n')` followed by the two `slice` calls.  `none` corresponds to
`indexOf` returning `-1` (no newline in the buffer); `some (l, r)` returns
the text before the first newline and the text after it. -/
def splitAtNL : List Char → Option (List Char × List Char)
  | [] => none
  | c :: cs =>
    if c = '\n' then some ([], cs)
    else
      match splitAtNL cs with
      | none => none
      | some (l, r) => some (c :: l, r)

/-- Model of the whole `while (newlineIndex !== -1)` loop of `handleData`:
extract every complete line in order, returning the list of raw lines and
the remaining (newline-free) tail.  Defined by structural recursion on the
buffer; `drain_loop_none` and `drain_loop_some` below show it satisfies
exactly the `indexOf`/`slice` loop equations of the source. -/
def drain : List Char → List (List Char) × List Char
  | [] => ([], [])
  | c :: cs =>
    if c = '\n' then
      ([] :: (drain cs).1, (drain cs).2)
    else
      match drain cs with
      | ([], r) => ([], c :: r)
      | (l :: ls, r) => ((c :: l) :: ls, r)

/-- Join a list of lines back into a buffer, terminating each with `'\n'`. -/
def joinNL : List (List Char) → List Char
  | [] => []
  | l :: ls => l ++ '\n' :: joinNL ls

/-- The frames emitted by one pass of the `handleData` loop over a buffer:
each complete line, in order, is trimmed and emitted iff non-empty after
trimming (`if (line.length > 0) this.emit('message', line)`). -/
def framesOf (buf : List Char) : List (List Char) :=
  ((drain buf).1.map jsTrim).filter (fun l => !l.isEmpty)

/-- Model of `StdioTransport.handleData`: append the chunk to the carried
buffer (`this.buffer += data.toString()`), run the newline loop, and return
the emitted frames together with the new value of `this.buffer`. -/
def handleData (buffer chunk : List Char) : List (List Char) × List Char :=
  (framesOf (buffer ++ chunk), (drain (buffer ++ chunk)).2)

/-- Accumulated observable state of the framer across several calls to
`handleData`: the carried buffer and all frames emitted so far. -/
structure FramerAcc where
  buffer : List Char
  frames : List (List Char)
deriving DecidableEq, Repr

/-- Feed one chunk through `handleData`, appending the emitted frames. -/
def feedChunk (a : FramerAcc) (chunk : List Char) : FramerAcc :=
  { buffer := (handleData a.buffer chunk).2,
    frames := a.frames ++ (handleData a.buffer chunk).1 }

/-- Feed a list of chunks through `handleData`, one call per chunk. -/
def feedAll (a : FramerAcc) (chunks : List (List Char)) : FramerAcc :=
  chunks.foldl feedChunk a

/-- State of the WHATWG UTF-8 decoder: the codepoint being assembled, how
many continuation bytes have been seen and are needed, and the admissible
range for the next continuation byte. -/
structure Utf8State where
  codepoint : Nat
  seen : Nat
  needed : Nat
  lo : Nat
  hi : Nat
deriving DecidableEq, Repr

/-- Initial (between-codepoints) decoder state. -/
def initUtf8 : Utf8State :=
  { codepoint := 0, seen := 0, needed := 0, lo := 0x80, hi := 0xBF }

/-- Handle one byte in the between-codepoints state: ASCII is emitted
directly, a well-formed leading byte opens a multi-byte sequence with the
WHATWG bounds that exclude overlong and surrogate encodings, and any other
byte is replaced by U+FFFD. -/
def utf8Start (b : Nat) : Utf8State × List Char :=
  if b ≤ 0x7F then (initUtf8, [Char.ofNat b])
  else if 0xC2 ≤ b ∧ b ≤ 0xDF then
    ({ initUtf8 with codepoint := b % 32, needed := 1 }, [])
  else if 0xE0 ≤ b ∧ b ≤ 0xEF then
    ({ initUtf8 with
         codepoint := b % 16, needed := 2,
         lo := if b = 0xE0 then 0xA0 else 0x80,
         hi := if b = 0xED then 0x9F else 0xBF }, [])
  else if 0xF0 ≤ b ∧ b ≤ 0xF4 then
    ({ initUtf8 with
         codepoint := b % 8, needed := 3,
         lo := if b = 0xF0 then 0x90 else 0x80,
         hi := if b = 0xF4 then 0x8F else 0xBF }, [])
  else (initUtf8, ['\uFFFD'])

/-- Handle one byte in an arbitrary decoder state: a continuation byte in
range extends the pending codepoint (emitting it when complete); a byte
out of range emits U+FFFD and is then reprocessed as a leading byte. -/
def utf8Step (st : Utf8State) (b : Nat) : Utf8State × List Char :=
  if st.needed = 0 then utf8Start b
  else if st.lo ≤ b ∧ b ≤ st.hi then
    let cp := st.codepoint * 64 + b % 64
    if st.seen + 1 = st.needed then (initUtf8, [Char.ofNat cp])
    else ({ codepoint := cp, seen := st.seen + 1, needed := st.needed,
            lo := 0x80, hi := 0xBF }, [])
  else
    let p := utf8Start b
    (p.1, '\uFFFD' :: p.2)

/-- Run the decoder over a byte list, flushing a final U+FFFD for a
sequence left incomplete at the end of the buffer. -/
def utf8DecodeLoop : Utf8State → List Nat → List Char
  | st, [] => if st.needed = 0 then [] else ['\uFFFD']
  | st, b :: bs =>
    let p := utf8Step st b
    p.2 ++ utf8DecodeLoop p.1 bs

/-- Model of Node's `Buffer.toString()` with the default utf8 encoding:
the WHATWG UTF-8 decode-with-replacement of the buffer's bytes (the wire
format of the transport is UTF-8 text).  `handleData` applies this to each
data chunk independently (`this.buffer += data.toString()`), so an
incomplete multi-byte sequence at a chunk boundary is replaced rather than
carried over. -/
def utf8DecodeReplace (bs : List Nat) : List Char :=
  utf8DecodeLoop initUtf8 bs

/-- Feed a list of raw byte chunks through the framer the way the stdout
handler does: each chunk is decoded on its own by `Buffer.toString()` and
the resulting text is handed to `handleData`. -/
def feedBytes (a : FramerAcc) (chunks : List (List Nat)) : FramerAcc :=
  feedAll a (chunks.map utf8DecodeReplace)

/-- Errors produced by the transport, mirroring the `Error` objects the
source constructs (each constructor records the data interpolated into the
corresponding message string). -/
inductive TErr where
  | immediateExit (code : Int)
  | exitedDuringConnection (code : Option Int) (signal : Option String)
  | connectionTimeout (ms : Nat)
  | procError (eid : Nat)
  | notConnected
  | writeFailed (eid : Nat)
deriving DecidableEq, Repr

/-- Externally observable actions of the transport: `emit`-ed events, the
settlement of the `connect` promise, the `SIGTERM` sent by `cleanup`, the
`spawn` call, and writes to the child's stdin. -/
inductive Emit where
  | message (frame : List Char)
  | logLine (line : List Char)
  | errorOut (e : TErr)
  | closeOut
  | resolveP
  | rejectP (e : TErr)
  | killSig
  | spawnProc
  | stdinWrite (payload : List Char)
deriving DecidableEq, Repr

/-- Relevant configuration: `connectionTimeout` (default 10000 ms in the
source); the remaining fields (command, args, cwd, env, debug) do not
affect the modelled behaviour. -/
structure Config where
  connectionTimeout : Nat
deriving DecidableEq, Repr

/-- State of one `StdioTransport` instance during/after a `connect` call:
the instance fields `process`/`buffer`/`connected`, the closure-local
`settled` flag and timer handles of `connect`, and the spawned child's
observable `killed`/`exitCode`.  `hasProcess` is `this.process ===
childProcess`; after `cleanup` sets `this.process = null` it is false.
`outcome` records how the returned promise settled (`some none` =
resolved, `some (some e)` = rejected with `e`). -/
structure St where
  hasProcess : Bool
  childKilled : Bool
  childExit : Option Int
  buffer : List Char
  connected : Bool
  settled : Bool
  outcome : Option (Option TErr)
  graceArmed : Bool
  timeoutArmed : Bool
deriving DecidableEq, Repr

/-- Model of the local `resolveOnce`: if not settled, mark settled, set
`this.connected = true` and resolve the promise. -/
def resolveOnce (s : St) : St × List Emit :=
  if s.settled then (s, [])
  else ({ s with settled := true, connected := true, outcome := some none },
        [Emit.resolveP])

/-- Model of the local `rejectOnce`: if not settled, mark settled, set
`this.connected = false` and reject the promise with the given error. -/
def rejectOnce (e : TErr) (s : St) : St × List Emit :=
  if s.settled then (s, [])
  else ({ s with settled := true, connected := false, outcome := some (some e) },
        [Emit.rejectP e])

/-- Model of the private `cleanup`: if a process handle is live, send it
`SIGTERM` and drop the reference; then clear `connected` and the frame
buffer. -/
def cleanup (s : St) : St × List Emit :=
  if s.hasProcess then
    ({ s with hasProcess := false, childKilled := true,
              connected := false, buffer := [] }, [Emit.killSig])
  else
    ({ s with connected := false, buffer := [] }, [])

/-- Model of `isConnected`: the cached flag re-checked against the live
handle, its recorded exit code and its killed flag. -/
def isConnected (s : St) : Bool :=
  s.connected && s.hasProcess && s.childExit == none && !s.childKilled

/-- Outcome of the underlying `stdin.write` call, supplied by the
environment: the write either succeeds or throws, and a throw is caught by
the `try`/`catch` in `send`. -/
inductive WriteOutcome where
  | ok
  | threw (eid : Nat)
deriving DecidableEq, Repr

/-- Model of `send`: with no live process or not connected, emit an error
event and return; otherwise write the message followed by one newline,
catching a throwing write and reporting it as an error event. -/
def send (s : St) (msg : List Char) (w : WriteOutcome) : List Emit :=
  if !s.hasProcess || !s.connected then
    [Emit.errorOut TErr.notConnected]
  else
    match w with
    | WriteOutcome.ok => [Emit.stdinWrite (msg ++ ['\n'])]
    | WriteOutcome.threw eid => [Emit.errorOut (TErr.writeFailed eid)]

/-- Model of `disconnect`: return immediately if no live handle, otherwise
run `cleanup`. -/
def disconnect (s : St) : St × List Emit :=
  if s.hasProcess then cleanup s else (s, [])

/-- State at the start of the `connect` promise body, right after `spawn`
returns and `this.process = childProcess`: both timers armed, not settled,
the previous frame buffer carried over unchanged. -/
def initSt (b : List Char) : St :=
  { hasProcess := true, childKilled := false, childExit := none,
    buffer := b, connected := false, settled := false, outcome := none,
    graceArmed := true, timeoutArmed := true }

/-- Model of a `connect()` call entry: if `this.connected`, log and return
(no spawn); otherwise spawn a child and install fresh timers and handlers. -/
def connectCall (s : St) : St × List Emit :=
  if s.connected then (s, [])
  else (initSt s.buffer, [Emit.spawnProc])

/-- Asynchronous events that can reach the handlers installed by
`connect`: the two timer firings, stdout/stderr data, and the process
`error`/`close`/`exit` events. -/
inductive Ev where
  | graceFire
  | timeoutFire
  | stdoutData (chunk : List Char)
  | stderrData (chunk : List Char)
  | procError (eid : Nat)
  | procClose (code : Option Int) (signal : Option String)
  | procExit (code : Option Int) (signal : Option String)
deriving DecidableEq, Repr

/-- One handler invocation.  A timer event whose timer is no longer armed
is a no-op (the source cancels timers with `clearTimeout`, so a cancelled
timer can never run; an already-fired timer is disarmed too).  Each branch
mirrors the corresponding callback registered in `connect`. -/
def step (cfg : Config) (s : St) : Ev → St × List Emit
  | Ev.graceFire =>
    if s.graceArmed = false then (s, []) else
    let s1 := { s with graceArmed := false }
    if s1.connected = false ∧ s1.hasProcess = true ∧ s1.childKilled = false ∧
        s1.childExit = none then
      resolveOnce s1
    else
      match s1.childExit with
      | some c => if s1.settled = false then rejectOnce (TErr.immediateExit c) s1 else (s1, [])
      | none => (s1, [])
  | Ev.timeoutFire =>
    if !s.timeoutArmed then (s, []) else
    let s1 := { s with timeoutArmed := false, graceArmed := false }
    let p := cleanup s1
    let q := rejectOnce (TErr.connectionTimeout cfg.connectionTimeout) p.1
    (q.1, p.2 ++ q.2)
  | Ev.stdoutData chunk =>
    let s1 := { s with timeoutArmed := false, graceArmed := false }
    let p := handleData s1.buffer chunk
    ({ s1 with buffer := p.2 }, p.1.map Emit.message)
  | Ev.stderrData chunk =>
    let m := jsTrim chunk
    (s, if m.isEmpty then [] else [Emit.logLine m])
  | Ev.procError eid =>
    let s1 := { s with timeoutArmed := false, graceArmed := false }
    let pre := if s1.settled && s1.connected then [Emit.errorOut (TErr.procError eid)] else []
    let q := rejectOnce (TErr.procError eid) s1
    (q.1, pre ++ q.2)
  | Ev.procClose code signal =>
    let s1 := { s with timeoutArmed := false, graceArmed := false, childExit := code }
    if !s1.settled then
      rejectOnce (TErr.exitedDuringConnection code signal) s1
    else
      ({ s1 with connected := false }, [Emit.closeOut])
  | Ev.procExit code _signal =>
    ({ s with graceArmed := false, childExit := code, connected := false }, [])

/-- Run a sequence of handler invocations, concatenating their emissions. -/
def run (cfg : Config) (s : St) : List Ev → St × List Emit
  | [] => (s, [])
  | e :: es =>
    let p := step cfg s e
    let q := run cfg p.1 es
    (q.1, p.2 ++ q.2)

/-- Whether an emission settles the `connect` promise. -/
def isSettleEmit : Emit → Bool
  | Emit.resolveP => true
  | Emit.rejectP _ => true
  | Emit.message _ => false
  | Emit.logLine _ => false
  | Emit.errorOut _ => false
  | Emit.closeOut => false
  | Emit.killSig => false
  | Emit.spawnProc => false
  | Emit.stdinWrite _ => false

/-- Convenience constructor for a transport state, listing every field of
`St` positionally. -/
def mkSt (hp k : Bool) (ce : Option Int) (b : List Char) (c se : Bool)
    (o : Option (Option TErr)) (g t : Bool) : St :=
  { hasProcess := hp, childKilled := k, childExit := ce, buffer := b,
    connected := c, settled := se, outcome := o, graceArmed := g,
    timeoutArmed := t }

theorem splitAtNL_eq_none {s : List Char} (h : splitAtNL s = none) : '\n' ∉ s := by
  induction s with
  | nil => simp
  | cons c cs ih =>
    by_cases hc : c = '\n'
    · simp [splitAtNL, hc] at h
    · simp only [splitAtNL, hc, if_false] at h
      cases hs : splitAtNL cs with
      | none =>
        simp [List.mem_cons, hc]
        exact ⟨fun he => hc he.symm, ih hs⟩
      | some p => rw [hs] at h; cases h

theorem splitAtNL_eq_some {s l r : List Char} (h : splitAtNL s = some (l, r)) :
    s = l ++ '\n' :: r ∧ '\n' ∉ l := by
  induction s generalizing l r with
  | nil => cases h
  | cons c cs ih =>
    by_cases hc : c = '\n'
    · subst hc
      simp [splitAtNL] at h
      obtain ⟨hl, hr⟩ := h
      subst hl; subst hr
      simp
    · simp only [splitAtNL, hc, if_false] at h
      cases hs : splitAtNL cs with
      | none => rw [hs] at h; cases h
      | some p =>
        rw [hs] at h
        obtain ⟨pl, pr⟩ := p
        simp at h
        obtain ⟨hl, hr⟩ := h
        obtain ⟨hcs, hnl⟩ := ih hs
        subst hl; subst hr
        constructor
        · rw [hcs]; simp
        · simp [List.mem_cons, hnl]
          exact fun he => hc he.symm

/-- The loop equation of `handleData` for the exit case: no newline found
means the loop body never runs and the buffer is left as the tail. -/
theorem drain_loop_none {buf : List Char} (h : splitAtNL buf = none) :
    drain buf = ([], buf) := by
  induction buf with
  | nil => rfl
  | cons c cs ih =>
    by_cases hc : c = '\n'
    · simp [splitAtNL, hc] at h
    · simp only [splitAtNL, hc, if_false] at h
      cases hs : splitAtNL cs with
      | none => simp [drain, hc, ih hs]
      | some p => rw [hs] at h; cases h

/-- The loop equation of `handleData` for the iteration case: the first
line is sliced off and the loop continues on the rest. -/
theorem drain_loop_some {buf l r : List Char} (h : splitAtNL buf = some (l, r)) :
    drain buf = (l :: (drain r).1, (drain r).2) := by
  induction buf generalizing l r with
  | nil => cases h
  | cons c cs ih =>
    by_cases hc : c = '\n'
    · subst hc
      simp [splitAtNL] at h
      obtain ⟨hl, hr⟩ := h
      subst hl; subst hr
      simp [drain]
    · simp only [splitAtNL, hc, if_false] at h
      cases hs : splitAtNL cs with
      | none => rw [hs] at h; cases h
      | some p =>
        rw [hs] at h
        obtain ⟨pl, pr⟩ := p
        simp at h
        obtain ⟨hl, hr⟩ := h
        subst hl; subst hr
        have hcs := ih hs
        simp only [drain, hc, if_false]
        rw [hcs]

/-- Structural characterisation of `drain`: the extracted lines rebuilt with
their newlines followed by the tail give back the original buffer, every
extracted line is newline-free, and the tail is newline-free. -/
theorem drain_spec (buf : List Char) :
    joinNL (drain buf).1 ++ (drain buf).2 = buf ∧
    (∀ l ∈ (drain buf).1, '\n' ∉ l) ∧ '\n' ∉ (drain buf).2 := by
  induction buf with
  | nil => simp [drain, joinNL]
  | cons c cs ih =>
    obtain ⟨ih1, ih2, ih3⟩ := ih
    by_cases hc : c = '\n'
    · subst hc
      simp only [drain, if_pos rfl]
      refine ⟨?_, ?_, ih3⟩
      · simp [joinNL, ih1]
      · intro l hl
        rcases List.mem_cons.mp hl with h | h
        · subst h; simp
        · exact ih2 l h
    · simp only [drain, hc, if_false]
      cases hd : drain cs with
      | mk lines rest =>
        rw [hd] at ih1 ih2 ih3
        cases lines with
        | nil =>
          simp only
          refine ⟨?_, by simp, ?_⟩
          · simp [joinNL] at ih1 ⊢
            exact ih1
          · simp [List.mem_cons, ih3]
            exact fun he => hc he.symm
        | cons l ls =>
          simp only
          refine ⟨?_, ?_, ih3⟩
          · simp [joinNL] at ih1 ⊢
            rw [← ih1]
          · intro l' hl'
            simp at hl'
            cases hl' with
            | inl h =>
              subst h
              simp [List.mem_cons]
              refine ⟨fun he => hc he.symm, ?_⟩
              exact ih2 l (by simp)
            | inr h => exact ih2 l' (by simp [h])

/-- Draining a newline-free buffer extracts nothing. -/
theorem drain_no_nl {buf : List Char} (h : '\n' ∉ buf) : drain buf = ([], buf) := by
  apply drain_loop_none
  cases hs : splitAtNL buf with
  | none => rfl
  | some p =>
    obtain ⟨l, r⟩ := p
    obtain ⟨heq, -⟩ := splitAtNL_eq_some hs
    exfalso
    exact h (heq ▸ by simp)

/-- Composing `drain` over an appended buffer: the lines of the first part
come first, and its newline-free tail is carried into the second part. -/
theorem drain_append (x y : List Char) :
    drain (x ++ y) =
      ((drain x).1 ++ (drain ((drain x).2 ++ y)).1,
       (drain ((drain x).2 ++ y)).2) := by
  have hnlstep : ∀ z, drain ('\n' :: z) = ([] :: (drain z).1, (drain z).2) := by
    intro z; simp [drain]
  induction x with
  | nil => simp [drain]
  | cons c cs ih =>
    by_cases hc : c = '\n'
    · subst hc
      rw [List.cons_append, hnlstep, hnlstep, ih]
      simp
    · have hstep : ∀ z, drain (c :: z) =
          match drain z with
          | ([], r) => ([], c :: r)
          | (l :: ls, r) => ((c :: l) :: ls, r) := by
        intro z; simp [drain, hc]
      rw [List.cons_append, hstep (cs ++ y), hstep cs, ih]
      cases hd : drain cs with
      | mk lines rest =>
        cases lines with
        | nil =>
          simp only [List.nil_append]
          rw [List.cons_append, hstep (rest ++ y)]
        | cons l ls => simp

theorem framesOf_append (x y : List Char) :
    framesOf (x ++ y) = framesOf x ++ framesOf ((drain x).2 ++ y) := by
  unfold framesOf
  rw [drain_append x y]
  simp [List.filter_append]

/-- Feeding chunks one call at a time is the same as draining the
concatenation of the carried buffer with all chunks at once, provided the
carried buffer is newline-free (which `handleData` maintains). -/
theorem feedAll_eq_join (a : FramerAcc) (chunks : List (List Char))
    (h : '\n' ∉ a.buffer) :
    feedAll a chunks =
      { buffer := (drain (a.buffer ++ chunks.flatten)).2,
        frames := a.frames ++ framesOf (a.buffer ++ chunks.flatten) } := by
  induction chunks generalizing a with
  | nil =>
    simp only [feedAll, List.foldl_nil, List.flatten_nil, List.append_nil]
    rw [drain_no_nl h]
    have : framesOf a.buffer = [] := by
      unfold framesOf
      rw [drain_no_nl h]
      simp
    rw [this]
    simp
  | cons c cs ih =>
    have hstep : feedAll a (c :: cs) = feedAll (feedChunk a c) cs := by
      simp [feedAll]
    rw [hstep]
    have hnl2 : '\n' ∉ (feedChunk a c).buffer := by
      simp only [feedChunk, handleData]
      exact (drain_spec (a.buffer ++ c)).2.2
    rw [ih _ hnl2]
    simp only [feedChunk, handleData, List.flatten_cons]
    rw [← List.append_assoc a.buffer c cs.flatten]
    rw [drain_append (a.buffer ++ c) cs.flatten]
    rw [framesOf_append (a.buffer ++ c) cs.flatten]
    simp

/-- Settlement case analysis for one handler invocation: either the
settled flag and the promise outcome are untouched and no settlement is
emitted, or the handler settles a previously unsettled race, producing an
outcome and exactly one settlement emission. -/
theorem step_settle_cases (cfg : Config) (s : St) (e : Ev) :
    ((step cfg s e).1.settled = s.settled ∧
     (step cfg s e).1.outcome = s.outcome ∧
     ((step cfg s e).2.countP isSettleEmit) = 0) ∨
    (s.settled = false ∧
     (step cfg s e).1.settled = true ∧
     ((step cfg s e).1.outcome).isSome = true ∧
     ((step cfg s e).2.countP isSettleEmit) = 1) := by
  cases e with
  | graceFire =>
    by_cases hg : s.graceArmed = false
    · left; simp [step, hg]
    · rw [Bool.not_eq_false] at hg
      by_cases hc : s.connected = false ∧ s.hasProcess = true ∧
          s.childKilled = false ∧ s.childExit = none
      · by_cases hsettled : s.settled
        · left
          simp [step, resolveOnce, hg, hsettled, hc.1, hc.2.1, hc.2.2.1, hc.2.2.2]
        · right
          rw [Bool.not_eq_true] at hsettled
          simp [step, resolveOnce, hg, hsettled, hc.1, hc.2.1, hc.2.2.1, hc.2.2.2,
                isSettleEmit, List.countP_cons]
      · cases hce : s.childExit with
        | none =>
          left
          rw [hce] at hc
          simp only [and_true] at hc
          simp [step, hg, hce, hc]
        | some c =>
          by_cases hsettled : s.settled
          · left; simp [step, hg, hce, hsettled]
          · right
            rw [Bool.not_eq_true] at hsettled
            simp [step, rejectOnce, hg, hce, hsettled, isSettleEmit, List.countP_cons]
  | timeoutFire =>
    by_cases ht : s.timeoutArmed = false
    · left; simp [step, ht]
    · rw [Bool.not_eq_false] at ht
      by_cases hsettled : s.settled
      · left
        simp [step, cleanup, rejectOnce, ht, hsettled, isSettleEmit, List.countP_cons]
        split <;> simp [isSettleEmit, List.countP_cons]
      · right
        rw [Bool.not_eq_true] at hsettled
        simp [step, cleanup, rejectOnce, ht, hsettled, isSettleEmit, List.countP_cons]
        split <;> simp [isSettleEmit, List.countP_cons]
  | stdoutData chunk =>
    left
    simp [step, isSettleEmit]
  | stderrData chunk =>
    left
    simp [step, isSettleEmit]
  | procError eid =>
    by_cases hsettled : s.settled
    · left
      simp [step, rejectOnce, hsettled, isSettleEmit, List.countP_cons]
    · right
      rw [Bool.not_eq_true] at hsettled
      simp [step, rejectOnce, hsettled, isSettleEmit, List.countP_cons]
  | procClose code signal =>
    by_cases hsettled : s.settled
    · left; simp [step, hsettled, isSettleEmit, List.countP_cons]
    · right
      rw [Bool.not_eq_true] at hsettled
      simp [step, rejectOnce, hsettled, isSettleEmit, List.countP_cons]
  | procExit code signal =>
    left
    simp [step]

theorem run_append (cfg : Config) (s : St) (xs ys : List Ev) :
    run cfg s (xs ++ ys) =
      ((run cfg (run cfg s xs).1 ys).1,
       (run cfg s xs).2 ++ (run cfg (run cfg s xs).1 ys).2) := by
  induction xs generalizing s with
  | nil => simp [run]
  | cons e es ih => simp [run, ih, List.append_assoc]

/-- Settlement accounting along a run: settlements emitted plus one for an
initially settled race equals one exactly when the final state is settled. -/
theorem run_settle_count (cfg : Config) (evs : List Ev) :
    ∀ s : St, ((run cfg s evs).2.countP isSettleEmit) + (if s.settled then 1 else 0)
      = (if (run cfg s evs).1.settled then 1 else 0) := by
  induction evs with
  | nil => intro s; simp [run]
  | cons e es ih =>
    intro s
    simp only [run, List.countP_append]
    rcases step_settle_cases cfg s e with ⟨h1, -, h3⟩ | ⟨h0, h1, -, h3⟩
    · have hih := ih (step cfg s e).1
      rw [h1] at hih
      rw [h3]
      simpa using hih
    · have hih := ih (step cfg s e).1
      rw [h1] at hih
      rw [h3, h0]
      have hx : (run cfg (step cfg s e).1 es).1.settled = true := by
        by_contra hx
        rw [Bool.not_eq_true] at hx
        rw [hx] at hih
        simp at hih
      rw [hx] at hih
      have hc0 : List.countP isSettleEmit (run cfg (step cfg s e).1 es).2 = 0 := by
        simpa using hih
      simp [hx, hc0]

theorem step_settled_preserved (cfg : Config) (s : St) (e : Ev)
    (h : s.settled = true) :
    (step cfg s e).1.settled = true ∧ (step cfg s e).1.outcome = s.outcome := by
  rcases step_settle_cases cfg s e with ⟨h1, h2, -⟩ | ⟨h0, -⟩
  · exact ⟨h ▸ h1, h2⟩
  · rw [h] at h0; cases h0

/-- Once settled, a whole run of further handler invocations keeps the
settled flag and never changes the promise outcome. -/
theorem run_settled_preserved (cfg : Config) (evs : List Ev) :
    ∀ s : St, s.settled = true →
      (run cfg s evs).1.settled = true ∧ (run cfg s evs).1.outcome = s.outcome := by
  induction evs with
  | nil => intro s h; simp [run, h]
  | cons e es ih =>
    intro s h
    obtain ⟨h1, h2⟩ := step_settled_preserved cfg s e h
    obtain ⟨h3, h4⟩ := ih _ h1
    simp only [run]
    exact ⟨h3, by rw [h4, h2]⟩

theorem step_coherent (cfg : Config) (s : St) (e : Ev)
    (h : s.settled = s.outcome.isSome) :
    (step cfg s e).1.settled = ((step cfg s e).1.outcome).isSome := by
  rcases step_settle_cases cfg s e with ⟨h1, h2, -⟩ | ⟨-, h1, h2, -⟩
  · rw [h1, h2, h]
  · rw [h1, h2]

/-- The settled flag agrees with `outcome.isSome` along every run. -/
theorem run_coherent (cfg : Config) (evs : List Ev) :
    ∀ s : St, s.settled = s.outcome.isSome →
      (run cfg s evs).1.settled = ((run cfg s evs).1.outcome).isSome := by
  induction evs with
  | nil => intro s h; simp [run, h]
  | cons e es ih =>
    intro s h
    simp only [run]
    exact ih _ (step_coherent cfg s e h)

/-- C1: the claim says stdout data arriving before the grace timer cancels
the pending timers, transitions to Established and resolves `connect`, and
still feeds the data to the framer.  Evaluating the stdout handler at such
an input shows the code cancels both timers and feeds the framer (the
frame is emitted) but never resolves: the race is left permanently
unsettled (`settled = false`, `connected = false`, `outcome = none`), and
even subsequent firings of the (now cancelled) timers cannot settle it. -/
theorem claim1_data_before_grace_never_resolves :
    step ⟨10000⟩ (initSt []) (Ev.stdoutData ("ok\n".toList)) =
      ({ hasProcess := true, childKilled := false, childExit := none,
         buffer := [], connected := false, settled := false, outcome := none,
         graceArmed := false, timeoutArmed := false },
       [Emit.message ("ok".toList)]) ∧
    (run ⟨10000⟩ (initSt [])
        [Ev.stdoutData ("ok\n".toList), Ev.graceFire, Ev.timeoutFire]).1.outcome
      = none := by
  exact ⟨by decide, by decide⟩

/-- C2 counterexample: the claim lists first stdout data among the signals
whose firing first "determines the outcome" of the connect race.  In the
run where stdout data fires first, no outcome is ever determined: the data
handler cancels both timers without settling, so the race stays unsettled
(no resolution and no rejection) even after both timers subsequently
attempt to fire. -/
theorem claim2_counterexample :
    (run ⟨10000⟩ (initSt [])
        [Ev.stdoutData ("x".toList), Ev.graceFire, Ev.timeoutFire]).1.settled
      = false ∧
    ((run ⟨10000⟩ (initSt [])
        [Ev.stdoutData ("x".toList), Ev.graceFire, Ev.timeoutFire]).2.countP
          isSettleEmit) = 0 := by
  exact ⟨by decide, by decide⟩

/-- C2 (amended): every `connect()` call settles at most once — along any
sequence of handler invocations at most one settlement is emitted, and
once an outcome is recorded no later signal changes it.  Of the racing
signals, the grace timer, the connection-timeout timer, a spawn error and
a close-before-settle each determine the outcome when they fire first from
the spawning state; first stdout data instead cancels both pending timers
without settling the race. -/
theorem claim2_settles_at_most_once :
    (∀ (cfg : Config) (b : List Char) (evs : List Ev),
       ((run cfg (initSt b) evs).2.countP isSettleEmit) ≤ 1) ∧
    (∀ (cfg : Config) (b : List Char) (evs evs' : List Ev) (o : Option TErr),
       (run cfg (initSt b) evs).1.outcome = some o →
       (run cfg (initSt b) (evs ++ evs')).1.outcome = some o) ∧
    (∀ (cfg : Config) (b : List Char),
       (step cfg (initSt b) Ev.graceFire).1.outcome = some none) ∧
    (∀ (cfg : Config) (b : List Char),
       (step cfg (initSt b) Ev.timeoutFire).1.outcome =
         some (some (TErr.connectionTimeout cfg.connectionTimeout))) ∧
    (∀ (cfg : Config) (b : List Char) (eid : Nat),
       (step cfg (initSt b) (Ev.procError eid)).1.outcome =
         some (some (TErr.procError eid))) ∧
    (∀ (cfg : Config) (b : List Char) (code : Option Int) (sig : Option String),
       (step cfg (initSt b) (Ev.procClose code sig)).1.outcome =
         some (some (TErr.exitedDuringConnection code sig))) ∧
    (∀ (cfg : Config) (b chunk : List Char),
       (step cfg (initSt b) (Ev.stdoutData chunk)).1.outcome = none ∧
       (step cfg (initSt b) (Ev.stdoutData chunk)).1.graceArmed = false ∧
       (step cfg (initSt b) (Ev.stdoutData chunk)).1.timeoutArmed = false) := by
  refine ⟨?_, ?_, ?_, ?_, ?_, ?_, ?_⟩
  · intro cfg b evs
    have h := run_settle_count cfg evs (initSt b)
    have hz : (if (initSt b).settled = true then 1 else 0) = 0 := rfl
    rw [hz] at h
    have hle : (if (run cfg (initSt b) evs).1.settled = true then 1 else 0) ≤ 1 := by
      split <;> omega
    omega
  · intro cfg b evs evs' o h
    have hco := run_coherent cfg evs (initSt b) (by rfl)
    rw [h] at hco
    simp at hco
    rw [run_append]
    obtain ⟨-, h2⟩ := run_settled_preserved cfg evs' (run cfg (initSt b) evs).1 hco
    show (run cfg (run cfg (initSt b) evs).1 evs').1.outcome = some o
    rw [h2, h]
  · intro cfg b; rfl
  · intro cfg b; rfl
  · intro cfg b eid; rfl
  · intro cfg b code sig; rfl
  · intro cfg b chunk; exact ⟨rfl, rfl, rfl⟩

/-- Witness for C2 (amended): in a concrete run the grace timer settles the
race with a resolution, and the recorded outcome survives a later firing
of the timeout timer. -/
theorem claim2_settles_at_most_once_witness :
    (run ⟨50⟩ (initSt []) [Ev.graceFire]).1.outcome = some none ∧
    (run ⟨50⟩ (initSt []) ([Ev.graceFire] ++ [Ev.timeoutFire])).1.outcome
      = some none :=
  ⟨by decide,
   claim2_settles_at_most_once.2.1 ⟨50⟩ [] [Ev.graceFire] [Ev.timeoutFire]
     none (by decide)⟩

/-- C3 counterexample: the same byte stream `0xC3 0xA9 0x0A` (the UTF-8
encoding of one accented letter and a newline) fed unsplit versus split
inside the two-byte sequence.  Unsplit, the framer emits the accented
letter as its frame; split as `[0xC3]` then `[0xA9, 0x0A]`, each chunk is
decoded on its own by `Buffer.toString()` before reaching the buffer, so
the truncated sequence and the orphaned continuation byte each become a
U+FFFD replacement character and the emitted frame differs.  Frame output
is therefore not invariant under arbitrary byte split points, only under
splits at character boundaries. -/
theorem claim3_bytes_counterexample :
    ([[0xC3], [0xA9, 0x0A]] : List (List Nat)).flatten =
      ([[0xC3, 0xA9, 0x0A]] : List (List Nat)).flatten ∧
    (feedBytes ⟨[], []⟩ [[0xC3, 0xA9, 0x0A]]).frames = [['\u00E9']] ∧
    (feedBytes ⟨[], []⟩ [[0xC3], [0xA9, 0x0A]]).frames = [['\uFFFD', '\uFFFD']] := by
  exact ⟨by decide, by rfl, by rfl⟩

/-- C3 (amended): feeding any two chunkings of the same character stream —
equivalently, any two byte chunkings whose split points fall on UTF-8
character boundaries — through `handleData` one chunk at a time produces
identical framer results (same frames in the same order and the same
carried buffer); splits inside a multi-byte sequence are excluded, since
per-chunk decoding replaces the fragments with U+FFFD.  In particular the
stream of the two JSON lines split mid-object yields exactly the two
expected frames. -/
theorem claim3_chunk_boundary_invariance :
    (∀ cs ds : List (List Char), cs.flatten = ds.flatten →
       feedAll ⟨[], []⟩ cs = feedAll ⟨[], []⟩ ds) ∧
    (feedAll ⟨[], []⟩
        ["\x7b\"a\":1\x7d\n\x7b\"".toList, "b\":2\x7d\n".toList]).frames =
      ["\x7b\"a\":1\x7d".toList, "\x7b\"b\":2\x7d".toList] := by
  constructor
  · intro cs ds h
    rw [feedAll_eq_join ⟨[], []⟩ cs (by simp), feedAll_eq_join ⟨[], []⟩ ds (by simp), h]
  · decide

/-- Witness for C3: the two-chunk split of the stream and the unsplit
stream produce the same framer result. -/
theorem claim3_chunk_boundary_invariance_witness :
    feedAll ⟨[], []⟩ ["\x7b\"a\":1\x7d\n\x7b\"".toList, "b\":2\x7d\n".toList] =
      feedAll ⟨[], []⟩ ["\x7b\"a\":1\x7d\n\x7b\"b\":2\x7d\n".toList] :=
  claim3_chunk_boundary_invariance.1
    ["\x7b\"a\":1\x7d\n\x7b\"".toList, "b\":2\x7d\n".toList]
    ["\x7b\"a\":1\x7d\n\x7b\"b\":2\x7d\n".toList] (by decide)

/-- C4 counterexample: while a previous `connect` is still in flight the
state has a live handle (`hasProcess = true`) but `connected = false`, so
the `if (this.connected)` guard does not fire and a second `connect()`
call spawns a second process. -/
theorem claim4_counterexample :
    (initSt []).hasProcess = true ∧ (initSt []).connected = false ∧
    connectCall (initSt []) = (initSt [], [Emit.spawnProc]) := by
  exact ⟨rfl, rfl, rfl⟩

/-- C4 (amended): a `connect()` call while the transport is connected
(Established) is a no-op that does not spawn a second process; but while a
previous connect is still in flight (live handle with `connected` still
false) a new `connect()` call does spawn another process. -/
theorem claim4_connect_guard :
    (∀ (hp k : Bool) (ce : Option Int) (b : List Char) (se : Bool)
       (o : Option (Option TErr)) (g t : Bool),
       connectCall (mkSt hp k ce b true se o g t) =
         (mkSt hp k ce b true se o g t, [])) ∧
    (∀ (k : Bool) (ce : Option Int) (b : List Char) (se : Bool)
       (o : Option (Option TErr)) (g t : Bool),
       (connectCall (mkSt true k ce b false se o g t)).2 = [Emit.spawnProc]) := by
  constructor <;> intros <;> rfl

/-- C5: one `handleData` call appends the chunk to the carried buffer and
splits the result into complete newline-terminated lines followed by the
newline-free unterminated tail; the emitted frames are exactly the trimmed
lines, in order, filtered to the non-empty ones; the new buffer is that
tail; and the buffer is cleared by `cleanup` and hence on disconnect of a
live handle. -/
theorem claim5_handleData_contract :
    (∀ buffer chunk : List Char, ∃ ls : List (List Char),
       buffer ++ chunk = joinNL ls ++ (handleData buffer chunk).2 ∧
       ls.all (fun l => !l.contains '\n') = true ∧
       (handleData buffer chunk).1 =
         (ls.map jsTrim).filter (fun l => !l.isEmpty) ∧
       ((handleData buffer chunk).2).contains '\n' = false) ∧
    (∀ s : St, ((cleanup s).1).buffer = []) ∧
    (∀ (k : Bool) (ce : Option Int) (b : List Char) (c se : Bool)
       (o : Option (Option TErr)) (g t : Bool),
       ((disconnect (mkSt true k ce b c se o g t)).1).buffer = []) := by
  refine ⟨?_, ?_, ?_⟩
  · intro buffer chunk
    refine ⟨(drain (buffer ++ chunk)).1,
            ((drain_spec (buffer ++ chunk)).1).symm, ?_, rfl, ?_⟩
    · rw [List.all_eq_true]
      intro l hl
      have := (drain_spec (buffer ++ chunk)).2.1 l hl
      simpa using this
    · have := (drain_spec (buffer ++ chunk)).2.2
      simpa using this
  · intro s
    unfold cleanup
    split <;> rfl
  · intros; rfl

/-- C6: a timeout firing on a not-yet-settled race tears the connection
down — the child is signalled (`SIGTERM` emitted, `killed` set), the
handle reference is dropped, the frame buffer is reset, the connected flag
is cleared — and the promise is rejected with a timeout error naming the
configured `connectionTimeout`. -/
theorem claim6_timeout_teardown :
    ∀ (cfg : Config) (k : Bool) (ce : Option Int) (b : List Char) (c : Bool)
      (o : Option (Option TErr)) (g : Bool),
      step cfg (mkSt true k ce b c false o g true) Ev.timeoutFire =
        (mkSt false true ce [] false true
           (some (some (TErr.connectionTimeout cfg.connectionTimeout))) false false,
         [Emit.killSig,
          Emit.rejectP (TErr.connectionTimeout cfg.connectionTimeout)]) := by
  intros; rfl

/-- C7: before settlement, a process spawn error rejects the connect with
that error, and a close rejects it with an error carrying the observed
exit code and signal; in both cases the connected flag ends false and
`isConnected` is false. -/
theorem claim7_spawn_error_and_premature_close :
    (∀ (cfg : Config) (eid : Nat) (hp k : Bool) (ce : Option Int)
       (b : List Char) (c : Bool) (o : Option (Option TErr)) (g t : Bool),
       (step cfg (mkSt hp k ce b c false o g t) (Ev.procError eid)).1.outcome =
         some (some (TErr.procError eid)) ∧
       (step cfg (mkSt hp k ce b c false o g t) (Ev.procError eid)).2 =
         [Emit.rejectP (TErr.procError eid)] ∧
       (step cfg (mkSt hp k ce b c false o g t) (Ev.procError eid)).1.connected =
         false ∧
       isConnected (step cfg (mkSt hp k ce b c false o g t)
         (Ev.procError eid)).1 = false) ∧
    (∀ (cfg : Config) (code : Option Int) (sig : Option String)
       (hp k : Bool) (ce : Option Int) (b : List Char) (c : Bool)
       (o : Option (Option TErr)) (g t : Bool),
       (step cfg (mkSt hp k ce b c false o g t) (Ev.procClose code sig)).1.outcome =
         some (some (TErr.exitedDuringConnection code sig)) ∧
       (step cfg (mkSt hp k ce b c false o g t) (Ev.procClose code sig)).2 =
         [Emit.rejectP (TErr.exitedDuringConnection code sig)] ∧
       (step cfg (mkSt hp k ce b c false o g t) (Ev.procClose code sig)).1.connected =
         false ∧
       isConnected (step cfg (mkSt hp k ce b c false o g t)
         (Ev.procClose code sig)).1 = false) := by
  constructor
  · intros; exact ⟨rfl, rfl, rfl, rfl⟩
  · intros; exact ⟨rfl, rfl, rfl, rfl⟩

/-- C8: `send` is total and always produces exactly one observable action
(never a thrown exception, never a silent drop): with no live handle or
while not connected it emits a not-connected error event; when connected
it writes the message followed by exactly one newline, and a throwing
write is caught and reported as an error event. -/
theorem claim8_send_fire_and_forget :
    (∀ (s : St) (msg : List Char) (w : WriteOutcome),
       (send s msg w).length = 1) ∧
    (∀ (hp k : Bool) (ce : Option Int) (b : List Char) (se : Bool)
       (o : Option (Option TErr)) (g t : Bool) (msg : List Char)
       (w : WriteOutcome),
       send (mkSt hp k ce b false se o g t) msg w =
         [Emit.errorOut TErr.notConnected]) ∧
    (∀ (k : Bool) (ce : Option Int) (b : List Char) (c se : Bool)
       (o : Option (Option TErr)) (g t : Bool) (msg : List Char)
       (w : WriteOutcome),
       send (mkSt false k ce b c se o g t) msg w =
         [Emit.errorOut TErr.notConnected]) ∧
    (∀ (k : Bool) (ce : Option Int) (b : List Char) (se : Bool)
       (o : Option (Option TErr)) (g t : Bool) (msg : List Char),
       send (mkSt true k ce b true se o g t) msg WriteOutcome.ok =
         [Emit.stdinWrite (msg ++ ['\n'])]) ∧
    (∀ (k : Bool) (ce : Option Int) (b : List Char) (se : Bool)
       (o : Option (Option TErr)) (g t : Bool) (msg : List Char) (eid : Nat),
       send (mkSt true k ce b true se o g t) msg (WriteOutcome.threw eid) =
         [Emit.errorOut (TErr.writeFailed eid)]) := by
  refine ⟨?_, ?_, ?_, ?_, ?_⟩
  · intro s msg w
    unfold send
    split
    · rfl
    · cases w <;> rfl
  · intro hp k ce b se o g t msg w
    cases hp <;> cases w <;> rfl
  · intro k ce b c se o g t msg w
    cases w <;> rfl
  · intros; rfl
  · intros; rfl

/-- C9: `disconnect` never fails — with no live handle it returns the
state unchanged with no emission; it is idempotent (a second call after
any first call is a no-op); and with a live handle it signals the process,
drops the handle, clears the connected flag and clears the frame buffer,
returning without waiting for the exit. -/
theorem claim9_disconnect_idempotent :
    (∀ (k : Bool) (ce : Option Int) (b : List Char) (c se : Bool)
       (o : Option (Option TErr)) (g t : Bool),
       disconnect (mkSt false k ce b c se o g t) =
         (mkSt false k ce b c se o g t, [])) ∧
    (∀ s : St, disconnect ((disconnect s).1) = ((disconnect s).1, [])) ∧
    (∀ (k : Bool) (ce : Option Int) (b : List Char) (c se : Bool)
       (o : Option (Option TErr)) (g t : Bool),
       disconnect (mkSt true k ce b c se o g t) =
         (mkSt false true ce [] false se o g t, [Emit.killSig])) := by
  refine ⟨?_, ?_, ?_⟩
  · intros; rfl
  · intro s
    have hd : ∀ u : St, u.hasProcess = false → disconnect u = (u, []) := by
      intro u hu
      simp [disconnect, hu]
    by_cases h : s.hasProcess = true
    · have h2 : (disconnect s).1.hasProcess = false := by
        simp [disconnect, cleanup, h]
      exact hd _ h2
    · rw [Bool.not_eq_true] at h
      rw [hd s h]
      exact hd s h
  · intros; rfl

/-- C10: message and log notifications are not gated on settlement — an
unsettled (spawning) state still publishes every frame yielded by the
framer for a stdout chunk while the race remains unsettled, and any state
publishes a stderr chunk as a log notification exactly when it is
non-empty after trimming. -/
theorem claim10_notifications_not_gated :
    (∀ (cfg : Config) (hp k : Bool) (ce : Option Int) (b : List Char)
       (c g t : Bool) (chunk : List Char),
       (step cfg (mkSt hp k ce b c false none g t) (Ev.stdoutData chunk)).2 =
         (handleData b chunk).1.map Emit.message ∧
       (step cfg (mkSt hp k ce b c false none g t) (Ev.stdoutData chunk)).1.outcome =
         none ∧
       (step cfg (mkSt hp k ce b c false none g t) (Ev.stdoutData chunk)).1.settled =
         false) ∧
    (∀ (cfg : Config) (s : St) (chunk : List Char),
       step cfg s (Ev.stderrData chunk) =
         (s, if (jsTrim chunk).isEmpty then [] else [Emit.logLine (jsTrim chunk)])) := by
  constructor
  · intros; exact ⟨rfl, rfl, rfl⟩
  · intros; rfl

end StdioRpc
